import Mathlib

/-!
Verification development for the music-game backend (`src/app.py`, Flask +
SocketIO).  The Python source is shallowly embedded below: pure helpers become
Lean functions, HTTP endpoints become functions from request data and the
current mutable state (the `lobbies` table, the session, the socket map) to a
result and the updated state, and the background round scheduler becomes a
fuel-indexed loop over an explicit lobby state, parameterised by oracles for
the external song source and for the guess submissions arriving during a
round.  Python `dict`s are embedded as association lists with first-occurrence
lookup and replace-or-append update; Python string lowering and whitespace are
modelled on the ASCII range (all data handled by the app is ASCII).
-/

set_option maxRecDepth 1000000

namespace MusicGame

/-! ## Python dict operations (association lists) -/

/-- `d.get(k)` / `d[k]`: first binding of `k`, if any. -/
def dictGet {α β : Type} [DecidableEq α] : List (α × β) → α → Option β
  | [], _ => none
  | kv :: rest, k => if kv.1 = k then some kv.2 else dictGet rest k

/-- `d[k] = v`: replace the binding of `k` in place, else append it. -/
def dictSet {α β : Type} [DecidableEq α] : List (α × β) → α → β → List (α × β)
  | [], k, v => [(k, v)]
  | kv :: rest, k, v => if kv.1 = k then (k, v) :: rest else kv :: dictSet rest k v

/-- `del d[k]`: remove the binding of `k`. -/
def dictDel {α β : Type} [DecidableEq α] (d : List (α × β)) (k : α) : List (α × β) :=
  d.filter (fun kv => !(decide (kv.1 = k)))

/-- `k in d`. -/
def dictHas {α β : Type} [DecidableEq α] (d : List (α × β)) (k : α) : Bool :=
  (dictGet d k).isSome

/-! ## GuessValidator: `clean_title` (src/app.py lines 29-37)

`re.sub(r'\s*\([^)]*\)', '', title)` followed by `.strip().lower()`.  The
regex scanner tries each position left to right; a match is a maximal run of
whitespace followed by `(`, then everything up to and including the first
subsequent `)` (the greedy `[^)]*` cannot cross a `)`, and backtracking over
`\s*` cannot help because a whitespace character is never `(`).  When a match
is found the scanner resumes right after it, otherwise it advances one
character. -/

/-- `\s` on the ASCII range (space, tab, newline, vertical tab, form feed,
carriage return), which also matches Python's `str.strip` on ASCII input. -/
def pyIsSpace (c : Char) : Bool :=
  c == ' ' || c == '\t' || c == '\n' || c == '\x0b' || c == '\x0c' || c == '\r'

/-- Consume characters after a `(` up to and including the first `)`;
`none` when there is no closing `)`. -/
def dropThroughClose : List Char → Option (List Char)
  | [] => none
  | c :: rest => if c == ')' then some rest else dropThroughClose rest

/-- One left-to-right pass of `re.sub(r'\s*\([^)]*\)', '', ·)`.
The fuel is an upper bound on the number of scanner steps; each step either
emits one character or jumps past a nonempty match, so the input length
suffices. -/
def stripParensAux : Nat → List Char → List Char
  | 0, s => s
  | _ + 1, [] => []
  | fuel + 1, c :: rest =>
    match (c :: rest).dropWhile pyIsSpace with
    | '(' :: r =>
      match dropThroughClose r with
      | some r2 => stripParensAux fuel r2
      | none => c :: stripParensAux fuel rest
    | _ => c :: stripParensAux fuel rest

/-- `re.sub(r'\s*\([^)]*\)', '', s)`. -/
def stripParens (s : List Char) : List Char :=
  stripParensAux s.length s

/-- Python `str.strip()` on ASCII whitespace. -/
def pyStrip (s : List Char) : List Char :=
  ((s.dropWhile pyIsSpace).reverse.dropWhile pyIsSpace).reverse

/-- Python `str.lower()` on ASCII input (`Char.toLower` lowers exactly
`A`-`Z`). -/
def pyLower (s : String) : String :=
  String.mk (s.data.map Char.toLower)

/-- `clean_title` (lines 29-37): remove parenthesised segments, strip
surrounding whitespace, lowercase. -/
def clean_title (title : String) : String :=
  pyLower (String.mk (pyStrip (stripParens title.data)))

/-! ## `difflib.SequenceMatcher(None, a, b).ratio()` (used by `is_close_match`,
src/app.py lines 39-47)

Embedded from the CPython standard library with `isjunk = None`, so the junk
set is empty: the two junk-extension loops of `find_longest_match` never fire
and are omitted, while the two equality-extension loops are kept (they matter
once autojunk drops popular elements from `b2j`).  The float ratio
`2.0 * matches / length` is modelled as the exact rational. -/

/-- Result triple of `find_longest_match`. -/
structure Best where
  besti : Nat
  bestj : Nat
  bestsize : Nat
deriving Repr, DecidableEq

/-- `j2len.get(j, 0)`. -/
def j2get : List (Nat × Nat) → Nat → Nat
  | [], _ => 0
  | kv :: rest, j => if kv.1 = j then kv.2 else j2get rest j

/-- Indices of `c` in `b`, in increasing order. -/
def posOf (b : List Char) (c : Char) : List Nat :=
  (List.range b.length).filter (fun j => b.getD j c == c)

/-- `b2j.get(c, [])`: occurrence list of `c`, with autojunk purging of
popular elements when `len(b) >= 200` (`len(idxs) > len(b) // 100 + 1`). -/
def b2jGet (b : List Char) (c : Char) : List Nat :=
  let pos := posOf b c
  if 200 ≤ b.length && b.length / 100 + 1 < pos.length then [] else pos

/-- Inner loop of `find_longest_match` for one row `i`: walk the occurrence
list `js` of `a[i]` in `b` (already restricted to `[blo, bhi)`), building
`newj2len` (the `acc` argument) from the previous row `old` and improving the
best triple on strict increase (`k > bestsize` keeps the earliest `i`, then
the earliest `j`). -/
def flmRow (old : List (Nat × Nat)) (i : Nat) :
    List Nat → List (Nat × Nat) → Best → List (Nat × Nat) × Best
  | [], acc, best => (acc, best)
  | j :: js, acc, best =>
    let k := (if j = 0 then 0 else j2get old (j - 1)) + 1
    let best2 := if best.bestsize < k then ⟨i + 1 - k, j + 1 - k, k⟩ else best
    flmRow old i js ((j, k) :: acc) best2

/-- Outer loop of `find_longest_match` over `i in range(alo, ahi)`;
`j2len` is replaced by each row's `newj2len`. -/
def flmRows (a b : List Char) (blo bhi : Nat) :
    List Nat → List (Nat × Nat) → Best → Best
  | [], _, best => best
  | i :: is2, j2len, best =>
    let js := (b2jGet b (a.getD i ' ')).filter (fun j => decide (blo ≤ j) && decide (j < bhi))
    let p := flmRow j2len i js [] best
    flmRows a b blo bhi is2 p.1 p.2

/-- First extension loop: while `besti > alo and bestj > blo and
a[besti-1] == b[bestj-1]`, widen the block to the left.  `besti` decreases,
so `besti` itself bounds the number of steps. -/
def extendLeft (a b : List Char) (alo blo : Nat) : Nat → Best → Best
  | 0, best => best
  | fuel + 1, best =>
    if alo < best.besti && blo < best.bestj
        && (a.getD (best.besti - 1) ' ' == b.getD (best.bestj - 1) '!') then
      extendLeft a b alo blo fuel ⟨best.besti - 1, best.bestj - 1, best.bestsize + 1⟩
    else best

/-- Second extension loop: while `besti+bestsize < ahi and bestj+bestsize <
bhi and a[besti+bestsize] == b[bestj+bestsize]`, widen to the right. -/
def extendRight (a b : List Char) (ahi bhi : Nat) : Nat → Best → Best
  | 0, best => best
  | fuel + 1, best =>
    if best.besti + best.bestsize < ahi && best.bestj + best.bestsize < bhi
        && (a.getD (best.besti + best.bestsize) ' '
              == b.getD (best.bestj + best.bestsize) '!') then
      extendRight a b ahi bhi fuel ⟨best.besti, best.bestj, best.bestsize + 1⟩
    else best

/-- `find_longest_match(alo, ahi, blo, bhi)` with an empty junk set. -/
def findLongestMatch (a b : List Char) (alo ahi blo bhi : Nat) : Best :=
  let best0 := flmRows a b blo bhi (List.range' alo (ahi - alo)) [] ⟨alo, blo, 0⟩
  let best1 := extendLeft a b alo blo best0.besti best0
  extendRight a b ahi bhi (ahi - (best1.besti + best1.bestsize)) best1

/-- Total size of the matching blocks of `get_matching_blocks` restricted to
the range `a[alo:ahi]` / `b[blo:bhi]`: the longest match plus, recursively,
the totals of the two flanking ranges (`ratio` only sums the sizes, so the
sort-and-merge pass of `get_matching_blocks` is irrelevant here).  Each
recursive range is strictly smaller, so `(ahi - alo) + (bhi - blo)` bounds
the recursion depth and the top-level call passes that as fuel. -/
def matchingTotal (a b : List Char) : Nat → Nat → Nat → Nat → Nat → Nat
  | 0, _, _, _, _ => 0
  | fuel + 1, alo, ahi, blo, bhi =>
    let m := findLongestMatch a b alo ahi blo bhi
    if m.bestsize = 0 then 0
    else
      m.bestsize
        + (if alo < m.besti && blo < m.bestj then
            matchingTotal a b fuel alo m.besti blo m.bestj
          else 0)
        + (if m.besti + m.bestsize < ahi && m.bestj + m.bestsize < bhi then
            matchingTotal a b fuel (m.besti + m.bestsize) ahi (m.bestj + m.bestsize) bhi
          else 0)

/-- `sum(block.size for block in SequenceMatcher(None, a, b).get_matching_blocks())`. -/
def totalMatches (a b : List Char) : Nat :=
  matchingTotal a b (a.length + b.length + 1) 0 a.length 0 b.length

/-- `SequenceMatcher(None, a, b).ratio()`, i.e. `_calculate_ratio(matches,
len(a) + len(b))`, as an exact rational. -/
def ratioQ (a b : String) : ℚ :=
  if a.length + b.length = 0 then 1
  else 2 * (totalMatches a.data b.data : ℚ) / ((a.length + b.length : Nat) : ℚ)

/-- `is_close_match` (lines 39-47): clean both strings and test
`ratio >= threshold` with `threshold = 0.7`.  The comparison
`7/10 ≤ 2*m / (la+lb)` is decided in cleared-denominator integer form so that
it evaluates inside the kernel; `is_close_match_iff_ratioQ` proves it equal
to the rational-number comparison against `ratioQ`. -/
def is_close_match (guess correct_song : String) : Bool :=
  let guess_clean := clean_title guess
  let correct_clean := clean_title correct_song
  let m := totalMatches guess_clean.data correct_clean.data
  let len := guess_clean.length + correct_clean.length
  if len = 0 then true else decide (7 * len ≤ 10 * (2 * m))

/-- Range discipline of a `find_longest_match` result: the reported block
lies inside `a[alo:ahi]` × `b[blo:bhi]`. -/
def BestOk (alo ahi blo bhi : Nat) (x : Best) : Prop :=
  alo ≤ x.besti ∧ x.besti + x.bestsize ≤ ahi
    ∧ blo ≤ x.bestj ∧ x.bestj + x.bestsize ≤ bhi

/-- Invariant of the `j2len` map before processing row `bound`: a value `v`
stored at key `j` is the length of a match ending at `a[bound-1]` and `b[j]`,
so `v + alo ≤ bound` and `v + blo ≤ j + 1`. -/
def J2Ok (alo blo bound : Nat) (m : List (Nat × Nat)) : Prop :=
  ∀ jv ∈ m, jv.2 + alo ≤ bound ∧ jv.2 + blo ≤ jv.1 + 1

/-! ## Data model (the `lobbies` table entries and their parts) -/

/-- One entry of a lobby's `players` list. -/
structure Player where
  id : String
  is_host : Bool
  score : Nat
deriving Repr, DecidableEq

instance : Inhabited Player := ⟨⟨"", false, 0⟩⟩

/-- The song dict built from Deezer track data (`run_game`, lines 180-184). -/
structure Song where
  song : String
  artist : String
  audio_url : String
deriving Repr, DecidableEq

/-- One value of the per-round `lobby['guesses']` dict. -/
structure GuessRecord where
  guess : Option String
  submitted : Bool
deriving Repr, DecidableEq

/-- One value of the per-round `guess_results` dict (lines 224-227). -/
structure GuessResult where
  guess : Option String
  correct : Bool
deriving Repr, DecidableEq

/-- The per-round guess dict.  Keys are the session `user_id` values; the key
can be Python `None` when `submit_guess` runs with no session identity, hence
`Option String`.  `run_game` keys it by player ids (`some id`). -/
abbrev GuessDict : Type := List (Option String × GuessRecord)

/-- One entry of the global `lobbies` dict (as seeded by `create_lobby`,
lines 55-65, and mutated afterwards).  `guesses` is `none` until `run_game`
first assigns `lobby['guesses']`: the key is simply absent before that, which
is what makes `submit_guess` raise `KeyError` on a lobby whose game never
started. -/
structure Lobby where
  players : List Player
  status : String
  round : Nat
  max_rounds : Nat
  current_song : Option Song
  guesses : Option GuessDict
deriving Repr, DecidableEq

/-- The lobby seeded by `create_lobby` (lines 55-65) for a session user. -/
def create_lobby (user_id : String) : Lobby :=
  { players := [{ id := user_id, is_host := true, score := 0 }]
    status := "waiting"
    round := 0
    max_rounds := 10
    current_song := none
    guesses := none }

/-! ## Lobby membership operations -/

/-- The `players` mutation of `join_lobby` (lines 85-103): idempotent when the
user is already present, rejected when 8 players are present, otherwise append
a non-host player with score 0. -/
def joinPlayers (user_id : String) (ps : List Player) : List Player :=
  if ps.any (fun p => p.id == user_id) then ps
  else if 8 ≤ ps.length then ps
  else ps ++ [{ id := user_id, is_host := false, score := 0 }]

/-- The `players` mutation of `leave_lobby` (lines 131-143): drop the player,
then (when players remain but no host does) promote the first remaining
player to host. -/
def leavePlayers (user_id : String) (ps : List Player) : List Player :=
  let ps2 := ps.filter (fun p => !(p.id == user_id))
  if ps2.isEmpty then ps2
  else if ps2.any (fun p => p.is_host) then ps2
  else
    match ps2 with
    | [] => []
    | h :: t => { h with is_host := true } :: t

/-- Responses of the `leave_lobby` endpoint. -/
inductive LeaveResult where
  /-- 404 `Invalid lobby code`. -/
  | invalidCode
  /-- 400 `Not in a lobby` (raised when the session has no `user_id`). -/
  | notInLobby
  /-- `{success: true}`. -/
  | success
deriving Repr, DecidableEq

/-- `leave_lobby` (lines 116-150) over the `lobbies` table and the
`user_socket_map` (keyed by user id).  An empty lobby is deleted; otherwise
the mutated lobby is stored back. -/
def leave_lobby (code : Option String) (session_user : Option String)
    (lobbies : List (String × Lobby)) (socks : List (String × String)) :
    LeaveResult × List (String × Lobby) × List (String × String) :=
  match code with
  | none => (.invalidCode, lobbies, socks)
  | some c =>
    if c = "" then (.invalidCode, lobbies, socks)
    else
      match dictGet lobbies c with
      | none => (.invalidCode, lobbies, socks)
      | some lb =>
        match session_user with
        | none => (.notInLobby, lobbies, socks)
        | some uid =>
          let ps2 := leavePlayers uid lb.players
          let socks2 := if dictHas socks uid then dictDel socks uid else socks
          if ps2.isEmpty then (.success, dictDel lobbies c, socks2)
          else (.success, dictSet lobbies c { lb with players := ps2 }, socks2)

/-! ## `start_game` (lines 258-282) -/

/-- Responses of the `start_game` endpoint. -/
inductive StartResult where
  /-- 404 `Invalid lobby code`. -/
  | invalidCode
  /-- 400 `User not identified`. -/
  | noIdentity
  /-- 403 `Only host can start the game`. -/
  | notHost
  /-- `{success: true}`. -/
  | success
deriving Repr, DecidableEq

/-- Server-side state touched by `start_game`: the `lobbies` table plus the
list of `run_game` background tasks spawned so far (one entry per
`socketio.start_background_task(run_game, lobby_code)` call, recorded by the
lobby code it was given). -/
structure Server where
  lobbies : List (String × Lobby)
  spawned : List String
deriving Repr, DecidableEq

/-- `start_game`: resolve the lobby, require a session identity, require the
caller to be the host; then set status to `playing` and spawn one `run_game`
task.  There is no check of the current status before doing so. -/
def start_game (code : Option String) (session_user : Option String)
    (s : Server) : StartResult × Server :=
  match code with
  | none => (.invalidCode, s)
  | some c =>
    if c = "" then (.invalidCode, s)
    else
      match dictGet s.lobbies c with
      | none => (.invalidCode, s)
      | some lb =>
        match session_user with
        | none => (.noIdentity, s)
        | some uid =>
          if lb.players.any (fun p => p.id == uid && p.is_host) then
            (.success,
              { lobbies := dictSet s.lobbies c { lb with status := "playing" }
                spawned := s.spawned ++ [c] })
          else (.notHost, s)

/-! ## `submit_guess` (lines 359-386) -/

/-- Outcomes of the `submit_guess` endpoint.  `keyErrorGuesses` stands for the
uncaught Python `KeyError: 'guesses'` raised by `lobby['guesses']` when the
lobby dict has no `guesses` key (the game was never started), which surfaces
as an HTTP 500, not a structured response. -/
inductive SubmitResult where
  /-- 400 `Invalid request`. -/
  | invalidRequest
  /-- 400 `You have already made a guess this round`. -/
  | alreadyGuessed
  /-- `{success: true, ...}`. -/
  | success
  /-- Uncaught `KeyError: 'guesses'`. -/
  | keyErrorGuesses
deriving Repr, DecidableEq

/-- `submit_guess`: reject falsy guess / falsy or unknown code; read
`lobby['guesses']` (KeyError if absent); reject a second guess from the same
session key; otherwise record `{'guess': guess, 'submitted': True}`. -/
def submit_guess (guess : Option String) (code : Option String)
    (session_user : Option String) (lobbies : List (String × Lobby)) :
    SubmitResult × List (String × Lobby) :=
  if (match guess with | none => true | some g => g = "") then
    (.invalidRequest, lobbies)
  else
    match code with
    | none => (.invalidRequest, lobbies)
    | some c =>
      if c = "" then (.invalidRequest, lobbies)
      else
        match dictGet lobbies c with
        | none => (.invalidRequest, lobbies)
        | some lb =>
          match lb.guesses with
          | none => (.keyErrorGuesses, lobbies)
          | some gd =>
            if ((dictGet gd session_user).map GuessRecord.submitted).getD false then
              (.alreadyGuessed, lobbies)
            else
              let gd2 := dictSet gd session_user { guess := guess, submitted := true }
              (.success, dictSet lobbies c { lb with guesses := some gd2 })

/-! ## `validate_guess` / `reset_score` (lines 322-353)

The per-session accumulated score lives in `session['score']`; `none` models
an absent key. -/

/-- Successful response body of `validate_guess` (the `message` field is
determined by `correct` and elided). -/
structure ValidateResponse where
  correct : Bool
  score : Nat
deriving Repr, DecidableEq

/-- `validate_guess`: 400 when guess or song is missing/empty (session
untouched), otherwise judge with `is_close_match`, initialise the session
score to 0 if absent, increment it on a correct guess, and report it. -/
def validate_guess (guess song : Option String) (session_score : Option Nat) :
    Option ValidateResponse × Option Nat :=
  match guess, song with
  | some g, some s =>
    if g = "" || s = "" then (none, session_score)
    else
      let is_correct := is_close_match g s
      let sc0 := session_score.getD 0
      let sc1 := if is_correct then sc0 + 1 else sc0
      (some { correct := is_correct, score := sc1 }, some sc1)
  | _, _ => (none, session_score)

/-- `reset_score`: set the session score to 0 and report it. -/
def reset_score (_session_score : Option Nat) : Nat × Option Nat :=
  (0, some 0)

/-! ## The round scheduler `run_game` (lines 153-256)

`run_game` is one background task driving the lobby's rounds.  External
effects are modelled explicitly: `socketio.sleep` calls and `socketio.emit`
calls become an `Event` trace; the Deezer fetch of round `r`, attempt `t`,
becomes an oracle `fetch r t : Option Song` (`none` for a request failure or
incomplete track data, which the code treats alike); the guess submissions
arriving during round `r`'s 30-second window become a list `subs r` of
`(session user, guess)` pairs applied to the round's guess dict with
`submit_guess`'s already-guessed check; `connected` is the `user_socket_map`
membership used for the personal result sends.  The player list is the
lobby's own (concurrent join/leave during a round is outside this model). -/

/-- Observable scheduler effects, in program order. -/
inductive Event where
  /-- `socketio.sleep(seconds)`. -/
  | sleep (seconds : Nat)
  /-- `round_started` carrying the error notice instead of a song
  (lines 194-198). -/
  | round_started_error (round : Nat) (duration : Nat) (error : String)
  /-- `round_started` carrying the song (lines 208-212). -/
  | round_started (round : Nat) (duration : Nat) (song : Song)
  /-- `round_ended_personal`, sent only to a connected player's socket
  (lines 230-238). -/
  | round_ended_personal (player : String) (round : Nat) (correct_answer : String)
      (guess_result : GuessResult)
  /-- Room-wide `round_transition` (lines 241-244). -/
  | round_transition (next_round : Option Nat) (duration : Nat)
  /-- `game_ended` with the computed winner and final players (line 256). -/
  | game_ended (winner : Option String) (players : List Player)
deriving Repr, DecidableEq

/-- Line 162: `{player['id']: {'guess': None, 'submitted': False} for player
in lobby['players']}`. -/
def resetGuesses (players : List Player) : GuessDict :=
  players.map (fun p => (some p.id, { guess := none, submitted := false }))

/-- The clue-fetch retry loop (lines 166-190): up to 3 attempts, with
`socketio.sleep(1)` after every failed attempt (also the third). -/
def fetchAttempts (fetch : Nat → Option Song) : Option Song × List Event :=
  match fetch 0 with
  | some s => (some s, [])
  | none =>
    match fetch 1 with
    | some s => (some s, [.sleep 1])
    | none =>
      match fetch 2 with
      | some s => (some s, [.sleep 1, .sleep 1])
      | none => (none, [.sleep 1, .sleep 1, .sleep 1])

/-- The guess dict at the end of the 30-second window: each submission goes
through `submit_guess`'s mutation (rejected when that session key already
submitted, otherwise stored with `submitted = True`). -/
def applySubmissions (subs : List (Option String × String)) (gd : GuessDict) :
    GuessDict :=
  subs.foldl
    (fun d su =>
      if ((dictGet d su.1).map GuessRecord.submitted).getD false then d
      else dictSet d su.1 { guess := some su.2, submitted := true })
    gd

/-- `lobby['guesses'].get(player_id, {}).get('guess')` (line 219). -/
def playerGuess (gd : GuessDict) (player_id : String) : Option String :=
  (dictGet gd (some player_id)).bind GuessRecord.guess

/-- The scoring test of lines 220-221: the recorded guess is truthy (present
and non-empty) and equals the song title case-insensitively. -/
def isCorrectGuess (gd : GuessDict) (songTitle : String) (player_id : String) :
    Bool :=
  match playerGuess gd player_id with
  | some g => !(g == "") && (pyLower g == pyLower songTitle)
  | none => false

/-- The scoring pass (lines 217-227): bump each correct player's score by 1
and build the per-player `guess_results` dict. -/
def scoreStep (players : List Player) (gd : GuessDict) (songTitle : String) :
    List Player × List (String × GuessResult) :=
  (players.map (fun p =>
      if isCorrectGuess gd songTitle p.id then { p with score := p.score + 1 } else p),
   players.map (fun p =>
      (p.id, { guess := playerGuess gd p.id, correct := isCorrectGuess gd songTitle p.id })))

/-- `guess_results.get(uid, {'guess': None, 'correct': False})` (line 235). -/
def resultGet (results : List (String × GuessResult)) (uid : String) : GuessResult :=
  (dictGet results uid).getD { guess := none, correct := false }

/-- One iteration of the `while lobby['round'] <= max_rounds` loop
(lines 160-247): reset the guesses, fetch with retries; on failure broadcast
the error `round_started`, pause 5 and advance the round; on success
broadcast `round_started`, wait out the 30-second window (during which the
submissions of this round arrive), score, send the personal results to the
connected players, broadcast `round_transition`, pause 5 and advance. -/
def roundStep (fetch : Nat → Option Song) (subs : List (Option String × String))
    (connected : String → Bool) (lb : Lobby) : Lobby × List Event :=
  let gd0 := resetGuesses lb.players
  match fetchAttempts fetch with
  | (none, fetchEvs) =>
    ({ lb with guesses := some gd0, round := lb.round + 1 },
      fetchEvs
        ++ [.round_started_error lb.round 30 "Failed to fetch song data. Skipping round.",
            .sleep 5])
  | (some song, fetchEvs) =>
    let gdEnd := applySubmissions subs gd0
    let scored := scoreStep lb.players gdEnd song.song
    let personal := lb.players.filterMap (fun p =>
      if connected p.id then
        some (Event.round_ended_personal p.id lb.round song.song
          (resultGet scored.2 p.id))
      else none)
    ({ lb with
        guesses := some gdEnd
        current_song := some song
        players := scored.1
        round := lb.round + 1 },
      fetchEvs
        ++ [.round_started lb.round 30 song, .sleep 30]
        ++ personal
        ++ [.round_transition (if lb.round < 10 then some (lb.round + 1) else none) 5,
            .sleep 5])

/-- The winner fold of lines 250-255: running maximum started at `-1`,
updated only on a strict increase, so the first player attaining the maximal
score is kept. -/
def winnerLoop : List Player → Option String → Int → Option String × Int
  | [], w, h => (w, h)
  | p :: ps, w, h =>
    if h < (p.score : Int) then winnerLoop ps (some p.id) (p.score : Int)
    else winnerLoop ps w h

/-- `winner, highest_score` after the scan of lines 249-255. -/
def computeWinner (players : List Player) : Option String × Int :=
  winnerLoop players none (-1)

/-- The scheduler loop, structurally recursing on fuel.  `run_game` starts it
at round 1 with fuel 11; since every iteration advances the round by exactly
one, the `round <= 10` test exits the loop before the fuel can run out
(`runGameLoop_round` below makes this precise). -/
def runGameLoop (fetch : Nat → Nat → Option Song)
    (subs : Nat → List (Option String × String)) (connected : String → Bool) :
    Nat → Lobby → Lobby × List Event
  | 0, lb => (lb, [])
  | fuel + 1, lb =>
    if lb.round ≤ 10 then
      let stepped := roundStep (fetch lb.round) (subs lb.round) connected lb
      let rest := runGameLoop fetch subs connected fuel stepped.1
      (rest.1, stepped.2 ++ rest.2)
    else (lb, [])

/-- `run_game` (lines 153-256): set the round to 1, run the loop, then
compute the winner and emit `game_ended`.  (The code's initial
`lobbies.get(lobby_code)` guard is outside this model: the function is only
ever spawned for an existing lobby, which the caller resolves.) -/
def run_game (fetch : Nat → Nat → Option Song)
    (subs : Nat → List (Option String × String)) (connected : String → Bool)
    (lb : Lobby) : Lobby × List Event :=
  let looped := runGameLoop fetch subs connected 11 { lb with round := 1 }
  (looped.1,
    looped.2 ++ [.game_ended (computeWinner looped.1.players).1 looped.1.players])

/-- Number of hosts in a player list; the data-model invariant says this is 1
whenever the list is non-empty. -/
def hostCount (ps : List Player) : Nat :=
  (ps.filter (fun p => p.is_host)).length

/-- Modelled from the spec's wording of round scoring, for comparison with
the code's `isCorrectGuess`: the player's recorded guess for the round is
present, non-empty, and equal to the clue's title under case-insensitive
comparison. -/
def specGuessCorrect (gd : GuessDict) (songTitle : String) (player_id : String) :
    Prop :=
  ∃ g, playerGuess gd player_id = some g ∧ g ≠ "" ∧ pyLower g = pyLower songTitle

/-! ## Helper lemmas -/

theorem hostCount_filter_le (q : Player → Bool) (ps : List Player) :
    hostCount (ps.filter q) ≤ hostCount ps :=
  List.Sublist.length_le (List.Sublist.filter _ (List.filter_sublist ps))

theorem hostCount_pos_of_any (ps : List Player)
    (ha : ps.any (fun p => p.is_host) = true) : 1 ≤ hostCount ps := by
  rcases List.any_eq_true.mp ha with ⟨p, hp, hhost⟩
  have : p ∈ ps.filter (fun p => p.is_host) := List.mem_filter.mpr ⟨hp, hhost⟩
  exact List.length_pos.mpr (List.ne_nil_of_mem this)

theorem hostCount_promote (ps : List Player) (hne : ps ≠ [])
    (hnone : ps.any (fun p => p.is_host) = false) :
    hostCount (match ps with
      | [] => []
      | h :: t => { h with is_host := true } :: t) = 1 := by
  cases ps with
  | nil => exact absurd rfl hne
  | cons h t =>
    simp only [List.any_cons, Bool.or_eq_false_iff, List.any_eq_false] at hnone
    have ht : t.filter (fun p => p.is_host) = [] :=
      List.filter_eq_nil_iff.mpr (fun p hp => by simp [hnone.2 p hp])
    simp [hostCount, List.filter_cons, ht]

theorem j2get_spec (m : List (Nat × Nat)) (j : Nat) :
    j2get m j = 0 ∨ (j, j2get m j) ∈ m := by
  induction m with
  | nil => left; rfl
  | cons kv rest ih =>
    unfold j2get
    by_cases h : kv.1 = j
    · right
      rw [if_pos h]
      exact List.mem_cons.mpr (Or.inl (by rw [← h]))
    · rw [if_neg h]
      rcases ih with h0 | hmem
      · left; exact h0
      · right; exact List.mem_cons_of_mem kv hmem

theorem bestUpdate_ok (alo ahi blo bhi i j k : Nat) (best : Best)
    (hi2 : i < ahi) (hjb : j < bhi)
    (hk1 : k + alo ≤ i + 1) (hk2 : k + blo ≤ j + 1)
    (hbest : BestOk alo ahi blo bhi best) :
    BestOk alo ahi blo bhi
      (if best.bestsize < k then ⟨i + 1 - k, j + 1 - k, k⟩ else best) := by
  split
  · refine ⟨?_, ?_, ?_, ?_⟩ <;> dsimp only <;> omega
  · exact hbest

theorem flmRow_ok (old : List (Nat × Nat)) (i alo ahi blo bhi : Nat)
    (hi1 : alo ≤ i) (hi2 : i < ahi) (hold : J2Ok alo blo i old) :
    ∀ (js : List Nat), (∀ j ∈ js, blo ≤ j ∧ j < bhi) →
    ∀ (acc : List (Nat × Nat)) (best : Best),
      J2Ok alo blo (i + 1) acc → BestOk alo ahi blo bhi best →
      J2Ok alo blo (i + 1) (flmRow old i js acc best).1
      ∧ BestOk alo ahi blo bhi (flmRow old i js acc best).2 := by
  intro js
  induction js with
  | nil =>
    intro _ acc best hacc hbest
    exact ⟨hacc, hbest⟩
  | cons j js ih =>
    intro hjs acc best hacc hbest
    have hj := hjs j (List.mem_cons_self j js)
    have hkb : ((if j = 0 then 0 else j2get old (j - 1)) + 1) + alo ≤ i + 1
        ∧ ((if j = 0 then 0 else j2get old (j - 1)) + 1) + blo ≤ j + 1 := by
      by_cases hj0 : j = 0
      · subst hj0
        rw [if_pos rfl]
        constructor <;> omega
      · rw [if_neg hj0]
        rcases j2get_spec old (j - 1) with h0 | hmem
        · rw [h0]
          constructor <;> omega
        · have hv := hold _ hmem
          dsimp only at hv
          omega
    simp only [flmRow]
    apply ih
    · intro j2 hj2
      exact hjs j2 (List.mem_cons_of_mem j hj2)
    · intro jv hjv
      rcases List.mem_cons.mp hjv with rfl | hmem
      · exact hkb
      · exact hacc jv hmem
    · exact bestUpdate_ok alo ahi blo bhi i j _ best hi2 hj.2 hkb.1 hkb.2 hbest

theorem flmRows_ok (a b : List Char) (alo ahi blo bhi : Nat) :
    ∀ (n s : Nat), alo ≤ s → s + n = ahi →
    ∀ (m : List (Nat × Nat)) (best : Best),
      J2Ok alo blo s m → BestOk alo ahi blo bhi best →
      BestOk alo ahi blo bhi
        (flmRows a b blo bhi (List.range' s n) m best) := by
  intro n
  induction n with
  | zero =>
    intro s _ _ m best _ hbest
    exact hbest
  | succ nn ih =>
    intro s hs hsum m best hm hbest
    rw [List.range'_succ]
    simp only [flmRows]
    have hjs : ∀ j ∈ (b2jGet b (a.getD s ' ')).filter
        (fun j => decide (blo ≤ j) && decide (j < bhi)), blo ≤ j ∧ j < bhi := by
      intro j hj
      have hcond := List.of_mem_filter hj
      simp only [Bool.and_eq_true, decide_eq_true_eq] at hcond
      exact hcond
    have hrow := flmRow_ok m s alo ahi blo bhi hs (by omega) hm _ hjs [] best
      (fun jv hjv => absurd hjv (List.not_mem_nil jv)) hbest
    exact ih (s + 1) (by omega) (by omega) _ _ hrow.1 hrow.2

theorem extendLeft_ok (a b : List Char) (alo blo ahi bhi : Nat) :
    ∀ (fuel : Nat) (best : Best), BestOk alo ahi blo bhi best →
      BestOk alo ahi blo bhi (extendLeft a b alo blo fuel best) := by
  intro fuel
  induction fuel with
  | zero => intro best h; exact h
  | succ n ih =>
    intro best h
    unfold extendLeft
    split
    · rename_i hcond
      apply ih
      simp only [Bool.and_eq_true, decide_eq_true_eq] at hcond
      rcases h with ⟨h1, h2, h3, h4⟩
      refine ⟨?_, ?_, ?_, ?_⟩ <;> dsimp only <;> omega
    · exact h

theorem extendRight_ok (a b : List Char) (ahi bhi alo blo : Nat) :
    ∀ (fuel : Nat) (best : Best), BestOk alo ahi blo bhi best →
      BestOk alo ahi blo bhi (extendRight a b ahi bhi fuel best) := by
  intro fuel
  induction fuel with
  | zero => intro best h; exact h
  | succ n ih =>
    intro best h
    unfold extendRight
    split
    · rename_i hcond
      apply ih
      simp only [Bool.and_eq_true, decide_eq_true_eq] at hcond
      rcases h with ⟨h1, h2, h3, h4⟩
      refine ⟨?_, ?_, ?_, ?_⟩ <;> dsimp only <;> omega
    · exact h

theorem findLongestMatch_ok (a b : List Char) (alo ahi blo bhi : Nat)
    (h1 : alo ≤ ahi) (h2 : blo ≤ bhi) :
    BestOk alo ahi blo bhi (findLongestMatch a b alo ahi blo bhi) := by
  simp only [findLongestMatch]
  apply extendRight_ok
  apply extendLeft_ok
  exact flmRows_ok a b alo ahi blo bhi (ahi - alo) alo (le_refl alo) (by omega)
    [] ⟨alo, blo, 0⟩ (fun jv hjv => absurd hjv (List.not_mem_nil jv))
    ⟨le_refl alo, by simpa using h1, le_refl blo, by simpa using h2⟩

theorem matchingTotal_le (a b : List Char) :
    ∀ (fuel alo ahi blo bhi : Nat), alo ≤ ahi → blo ≤ bhi →
      matchingTotal a b fuel alo ahi blo bhi ≤ ahi - alo
      ∧ matchingTotal a b fuel alo ahi blo bhi ≤ bhi - blo := by
  intro fuel
  induction fuel with
  | zero =>
    intro alo ahi blo bhi _ _
    constructor <;> simp [matchingTotal]
  | succ n ih =>
    intro alo ahi blo bhi h1 h2
    have hok := findLongestMatch_ok a b alo ahi blo bhi h1 h2
    rcases hok with ⟨hb1, hb2, hb3, hb4⟩
    simp only [matchingTotal]
    set m := findLongestMatch a b alo ahi blo bhi with hmdef
    split
    · constructor <;> omega
    · have hL1 : (if alo < m.besti && blo < m.bestj then
          matchingTotal a b n alo m.besti blo m.bestj else 0)
          ≤ m.besti - alo := by
        split
        · exact (ih alo m.besti blo m.bestj hb1 hb3).1
        · omega
      have hL2 : (if alo < m.besti && blo < m.bestj then
          matchingTotal a b n alo m.besti blo m.bestj else 0)
          ≤ m.bestj - blo := by
        split
        · exact (ih alo m.besti blo m.bestj hb1 hb3).2
        · omega
      have hR1 : (if m.besti + m.bestsize < ahi && m.bestj + m.bestsize < bhi then
          matchingTotal a b n (m.besti + m.bestsize) ahi (m.bestj + m.bestsize) bhi
          else 0) ≤ ahi - (m.besti + m.bestsize) := by
        split
        · exact (ih (m.besti + m.bestsize) ahi (m.bestj + m.bestsize) bhi hb2 hb4).1
        · omega
      have hR2 : (if m.besti + m.bestsize < ahi && m.bestj + m.bestsize < bhi then
          matchingTotal a b n (m.besti + m.bestsize) ahi (m.bestj + m.bestsize) bhi
          else 0) ≤ bhi - (m.bestj + m.bestsize) := by
        split
        · exact (ih (m.besti + m.bestsize) ahi (m.bestj + m.bestsize) bhi hb2 hb4).2
        · omega
      constructor <;> omega

theorem totalMatches_le (a b : List Char) :
    totalMatches a b ≤ a.length ∧ totalMatches a b ≤ b.length := by
  have h := matchingTotal_le a b (a.length + b.length + 1) 0 a.length 0 b.length
    (Nat.zero_le _) (Nat.zero_le _)
  simpa [totalMatches] using h

/-- The integer comparison inside `is_close_match` agrees with
`ratio >= 0.7` stated over the exact rational `ratioQ`. -/
theorem is_close_match_iff_ratioQ (guess correct_song : String) :
    is_close_match guess correct_song = true ↔
      (7 : ℚ) / 10 ≤ ratioQ (clean_title guess) (clean_title correct_song) := by
  simp only [is_close_match, ratioQ]
  set a := clean_title guess
  set b := clean_title correct_song
  by_cases h : a.length + b.length = 0
  · rw [if_pos h, if_pos h]
    norm_num
  · rw [if_neg h, if_neg h]
    have hp : 0 < a.length + b.length := Nat.pos_of_ne_zero h
    have hlen : (0 : ℚ) < ((a.length + b.length : Nat) : ℚ) := by exact_mod_cast hp
    rw [decide_eq_true_eq, div_le_div_iff₀ (by norm_num) hlen]
    have hcast :
        ((7 : ℚ) * ((a.length + b.length : Nat) : ℚ)
            ≤ 2 * ((totalMatches a.data b.data : Nat) : ℚ) * 10)
          ↔ 7 * (a.length + b.length) ≤ 2 * totalMatches a.data b.data * 10 := by
      exact_mod_cast Iff.rfl
    rw [hcast]
    omega

theorem ratioQ_mem_unit (a b : String) : 0 ≤ ratioQ a b ∧ ratioQ a b ≤ 1 := by
  unfold ratioQ
  by_cases h : a.length + b.length = 0
  · rw [if_pos h]
    norm_num
  · rw [if_neg h]
    have hp : 0 < a.length + b.length := Nat.pos_of_ne_zero h
    have hlen : (0 : ℚ) < ((a.length + b.length : Nat) : ℚ) := by exact_mod_cast hp
    constructor
    · positivity
    · rw [div_le_one hlen]
      have hm := totalMatches_le a.data b.data
      have hnat : 2 * totalMatches a.data b.data ≤ a.length + b.length := by
        have e1 : a.length = a.data.length := rfl
        have e2 : b.length = b.data.length := rfl
        omega
      calc (2 : ℚ) * ((totalMatches a.data b.data : Nat) : ℚ)
          = ((2 * totalMatches a.data b.data : Nat) : ℚ) := by push_cast; ring
        _ ≤ ((a.length + b.length : Nat) : ℚ) := by exact_mod_cast hnat

/-! ## Claims -/

theorem isCorrectGuess_iff (gd : GuessDict) (songTitle player_id : String) :
    isCorrectGuess gd songTitle player_id = true ↔
      specGuessCorrect gd songTitle player_id := by
  unfold isCorrectGuess specGuessCorrect
  cases hpg : playerGuess gd player_id with
  | none => simp
  | some g => simp

/-- C1: in the scoring pass over the lobby's current player list, the player
at any position ends with score old + 1 iff their recorded guess is present,
non-empty and equal (case-insensitively) to the song title; in every other
case the player is left unchanged (in particular the score). -/
theorem c1_round_scoring (players : List Player) (gd : GuessDict)
    (songTitle : String) (i : Nat) (hi : i < players.length) :
    (((scoreStep players gd songTitle).1.getD i default).score
        = (players.getD i default).score + 1
      ↔ specGuessCorrect gd songTitle (players.getD i default).id)
    ∧ (¬ specGuessCorrect gd songTitle (players.getD i default).id →
        (scoreStep players gd songTitle).1.getD i default
          = players.getD i default) := by
  have hmap : (scoreStep players gd songTitle).1.getD i default
      = (if isCorrectGuess gd songTitle (players.getD i default).id then
          { players.getD i default with
              score := (players.getD i default).score + 1 }
        else players.getD i default) := by
    unfold scoreStep
    rw [List.getD_eq_getElem?_getD, List.getElem?_map,
      List.getElem?_eq_getElem hi, List.getD_eq_getElem?_getD,
      List.getElem?_eq_getElem hi]
    rfl
  rw [hmap]
  by_cases hc : isCorrectGuess gd songTitle (players.getD i default).id = true
  · rw [if_pos hc]
    have hspec := (isCorrectGuess_iff gd songTitle (players.getD i default).id).mp hc
    exact ⟨⟨fun _ => hspec, fun _ => rfl⟩, fun hn => absurd hspec hn⟩
  · have hc2 : isCorrectGuess gd songTitle (players.getD i default).id = false :=
      Bool.eq_false_iff.mpr hc
    rw [hc2]
    simp only [Bool.false_eq_true, if_false]
    constructor
    · constructor
      · intro hsc
        omega
      · intro hspec
        exact absurd ((isCorrectGuess_iff gd songTitle _).mpr hspec) hc
    · intro _
      trivial

/-- C1 witness: a two-player round in which only the first player's guess
matches the title case-insensitively. -/
theorem c1_round_scoring_witness :
    (((scoreStep
          [{ id := "1", is_host := true, score := 0 },
           { id := "2", is_host := false, score := 0 }]
          [(some "1", { guess := some "Song A", submitted := true }),
           (some "2", { guess := some "other", submitted := true })]
          "song a").1.getD 0 default).score
        = (([{ id := "1", is_host := true, score := 0 },
             { id := "2", is_host := false, score := 0 }] :
              List Player).getD 0 default).score + 1
      ↔ specGuessCorrect
          [(some "1", { guess := some "Song A", submitted := true }),
           (some "2", { guess := some "other", submitted := true })]
          "song a"
          (([{ id := "1", is_host := true, score := 0 },
             { id := "2", is_host := false, score := 0 }] :
              List Player).getD 0 default).id)
    ∧ (¬ specGuessCorrect
          [(some "1", { guess := some "Song A", submitted := true }),
           (some "2", { guess := some "other", submitted := true })]
          "song a"
          (([{ id := "1", is_host := true, score := 0 },
             { id := "2", is_host := false, score := 0 }] :
              List Player).getD 0 default).id →
        (scoreStep
          [{ id := "1", is_host := true, score := 0 },
           { id := "2", is_host := false, score := 0 }]
          [(some "1", { guess := some "Song A", submitted := true }),
           (some "2", { guess := some "other", submitted := true })]
          "song a").1.getD 0 default
          = ([{ id := "1", is_host := true, score := 0 },
              { id := "2", is_host := false, score := 0 }] :
              List Player).getD 0 default) :=
  c1_round_scoring
    [{ id := "1", is_host := true, score := 0 },
     { id := "2", is_host := false, score := 0 }]
    [(some "1", { guess := some "Song A", submitted := true }),
     (some "2", { guess := some "other", submitted := true })]
    "song a" 0 (by decide)

/-- C2: when every fetch attempt of a round fails, the scheduler iteration
emits exactly a 1-second sleep per failed attempt, the error-carrying
`round_started` with duration 30, and the 5-second pause; the round counter
advances by exactly one, the players (and hence every score) are unchanged,
and the loop then continues with the next round. -/
theorem c2_failed_fetch_skips_round (fetch : Nat → Option Song)
    (subs : List (Option String × String)) (connected : String → Bool)
    (lb : Lobby) (hf : ∀ attempt, fetch attempt = none) :
    roundStep fetch subs connected lb
      = ({ lb with
            guesses := some (resetGuesses lb.players)
            round := lb.round + 1 },
         [.sleep 1, .sleep 1, .sleep 1,
          .round_started_error lb.round 30
            "Failed to fetch song data. Skipping round.",
          .sleep 5])
    ∧ (roundStep fetch subs connected lb).1.players = lb.players
    ∧ (∀ fuel, lb.round ≤ 10 →
        runGameLoop (fun _ => fetch) (fun _ => subs) connected (fuel + 1) lb
          = ((runGameLoop (fun _ => fetch) (fun _ => subs) connected fuel
                (roundStep fetch subs connected lb).1).1,
             (roundStep fetch subs connected lb).2
               ++ (runGameLoop (fun _ => fetch) (fun _ => subs) connected fuel
                    (roundStep fetch subs connected lb).1).2)) := by
  have hfa : fetchAttempts fetch = (none, [.sleep 1, .sleep 1, .sleep 1]) := by
    unfold fetchAttempts
    rw [hf 0, hf 1, hf 2]
  refine ⟨?_, ?_, ?_⟩
  · unfold roundStep
    rw [hfa]
    rfl
  · unfold roundStep
    rw [hfa]
  · intro fuel hr
    simp only [runGameLoop, if_pos hr]

/-- C2 witness: the all-failing fetch on a freshly created lobby. -/
theorem c2_failed_fetch_skips_round_witness :
    roundStep (fun _ => none) [] (fun _ => false) (create_lobby "7")
      = ({ create_lobby "7" with
            guesses := some (resetGuesses (create_lobby "7").players)
            round := (create_lobby "7").round + 1 },
         [.sleep 1, .sleep 1, .sleep 1,
          .round_started_error (create_lobby "7").round 30
            "Failed to fetch song data. Skipping round.",
          .sleep 5])
    ∧ (roundStep (fun _ => none) [] (fun _ => false) (create_lobby "7")).1.players
        = (create_lobby "7").players
    ∧ (∀ fuel, (create_lobby "7").round ≤ 10 →
        runGameLoop (fun _ => (fun _ => none)) (fun _ => []) (fun _ => false)
            (fuel + 1) (create_lobby "7")
          = ((runGameLoop (fun _ => (fun _ => none)) (fun _ => []) (fun _ => false)
                fuel
                (roundStep (fun _ => none) [] (fun _ => false)
                  (create_lobby "7")).1).1,
             (roundStep (fun _ => none) [] (fun _ => false) (create_lobby "7")).2
               ++ (runGameLoop (fun _ => (fun _ => none)) (fun _ => [])
                    (fun _ => false) fuel
                    (roundStep (fun _ => none) [] (fun _ => false)
                      (create_lobby "7")).1).2)) :=
  c2_failed_fetch_skips_round (fun _ => none) [] (fun _ => false)
    (create_lobby "7") (fun _ => rfl)

/-- C5: whenever a lobby's player list is non-empty, exactly one player is
host.  `create_lobby` seeds exactly one host; `join_lobby`'s player mutation
never changes the host count (it appends a non-host or leaves the list
alone); and `leave_lobby`'s player mutation preserves a host count of 1
whenever players remain, promoting the first remaining player in join order
when the host left. -/
theorem c5_exactly_one_host :
    (∀ user_id : String, hostCount (create_lobby user_id).players = 1)
    ∧ (∀ (user_id : String) (ps : List Player),
        hostCount (joinPlayers user_id ps) = hostCount ps)
    ∧ (∀ (user_id : String) (ps : List Player), hostCount ps = 1 →
        leavePlayers user_id ps ≠ [] →
        hostCount (leavePlayers user_id ps) = 1) := by
  refine ⟨fun _ => rfl, ?_, ?_⟩
  · intro uid ps
    unfold joinPlayers
    split
    · rfl
    · split
      · rfl
      · simp [hostCount, List.filter_append]
  · intro uid ps h1 hne
    have hle : hostCount (ps.filter (fun p => !(p.id == uid))) ≤ 1 :=
      h1 ▸ hostCount_filter_le _ ps
    simp only [leavePlayers] at hne ⊢
    generalize hg : ps.filter (fun p => !(p.id == uid)) = ps2 at hne hle ⊢
    cases ps2 with
    | nil => simp at hne
    | cons q qs =>
      simp only [List.isEmpty_cons, Bool.false_eq_true, if_false] at hne ⊢
      cases ha : (q :: qs).any (fun p => p.is_host) with
      | true =>
        rw [if_pos rfl]
        exact Nat.le_antisymm hle (hostCount_pos_of_any _ ha)
      | false =>
        simp only [Bool.false_eq_true, if_false]
        exact hostCount_promote (q :: qs) (by simp) ha

/-- C5 witness: the concrete host leave on a two-player lobby, exercising the
promotion branch. -/
theorem c5_exactly_one_host_witness :
    hostCount (leavePlayers "1"
      [{ id := "1", is_host := true, score := 3 },
       { id := "2", is_host := false, score := 5 }]) = 1 :=
  c5_exactly_one_host.2.2 "1" _ (by decide) (by decide)

/-- C3 (code bug): `start_game` performs no status check before spawning.
Starting the same lobby twice as its host succeeds both times — the first
start already set the status to `playing` — and a second `run_game`
background task is spawned for the same lobby code. -/
theorem c3_double_start_spawns_two_schedulers :
    (start_game (some "123456") (some "7")
        { lobbies := [("123456", create_lobby "7")], spawned := [] }).1
      = .success
    ∧ ((start_game (some "123456") (some "7")
        { lobbies := [("123456", create_lobby "7")], spawned := [] }).2.lobbies.map
          (fun kv => kv.2.status)) = ["playing"]
    ∧ (start_game (some "123456") (some "7")
        (start_game (some "123456") (some "7")
          { lobbies := [("123456", create_lobby "7")], spawned := [] }).2).1
      = .success
    ∧ (start_game (some "123456") (some "7")
        (start_game (some "123456") (some "7")
          { lobbies := [("123456", create_lobby "7")], spawned := [] }).2).2.spawned
      = ["123456", "123456"] := by
  decide

/-- C9 (code bug): a freshly created lobby has status `waiting` and no
`guesses` key, and a submit-guess request against it with a valid code and a
non-empty guess raises the uncaught `KeyError: 'guesses'` at
`lobby['guesses']` instead of returning a structured failure. -/
theorem c9_submit_guess_keyerror_before_start :
    (create_lobby "7").status = "waiting"
    ∧ (create_lobby "7").guesses = none
    ∧ (submit_guess (some "hello") (some "654321") (some "7")
        [("654321", create_lobby "7")]).1 = .keyErrorGuesses := by
  decide

/-- C4 counterexample: run a full game (the song source failing throughout)
on a freshly created lobby; the loop exits with the lobby's round counter at
11, so `round ≤ max_rounds = 10` does not hold in every reachable state. -/
theorem c4_round_counter_exceeds_ten :
    (run_game (fun _ _ => none) (fun _ => []) (fun _ => false)
        (create_lobby "7")).1.round = 11
    ∧ ¬(11 ≤ 10) := by
  decide

theorem roundStep_round (fetch : Nat → Option Song)
    (subs : List (Option String × String)) (connected : String → Bool)
    (lb : Lobby) :
    (roundStep fetch subs connected lb).1.round = lb.round + 1 := by
  unfold roundStep
  rcases hfa : fetchAttempts fetch with ⟨os, evs⟩
  cases os <;> rfl

theorem runGameLoop_round (fetch : Nat → Nat → Option Song)
    (subs : Nat → List (Option String × String)) (connected : String → Bool) :
    ∀ (fuel : Nat) (lb : Lobby), 11 ≤ lb.round + fuel →
      (runGameLoop fetch subs connected fuel lb).1.round = max lb.round 11 := by
  intro fuel
  induction fuel with
  | zero =>
    intro lb h
    simp only [runGameLoop]
    omega
  | succ n ih =>
    intro lb h
    by_cases hr : lb.round ≤ 10
    · simp only [runGameLoop, if_pos hr]
      have h2 := ih (roundStep (fetch lb.round) (subs lb.round) connected lb).1
        (by rw [roundStep_round]; omega)
      rw [h2, roundStep_round]
      omega
    · simp only [runGameLoop, if_neg hr]
      omega

/-- C4 (amended): the round counter starts at 0 on creation; every scheduler
loop iteration advances it by exactly one; and the loop exits with the
counter at `max_rounds + 1 = 11` (not at 10: the `while round <= 10` test
runs one final time after the last increment), so `0 ≤ round ≤ 11` is the
tight reachable bound. -/
theorem c4_amended_round_bounds :
    (∀ user_id : String, (create_lobby user_id).round = 0)
    ∧ (∀ (fetch : Nat → Option Song) (subs : List (Option String × String))
        (connected : String → Bool) (lb : Lobby),
        (roundStep fetch subs connected lb).1.round = lb.round + 1)
    ∧ (∀ (fetch : Nat → Nat → Option Song)
        (subs : Nat → List (Option String × String))
        (connected : String → Bool) (lb : Lobby),
        (run_game fetch subs connected lb).1.round = 11) := by
  refine ⟨fun _ => rfl, roundStep_round, ?_⟩
  intro fetch subs connected lb
  unfold run_game
  have h := runGameLoop_round fetch subs connected 11 { lb with round := 1 }
    (by simp)
  simpa using h

theorem dictGet_dictSet {α β : Type} [DecidableEq α] (d : List (α × β)) (k : α)
    (v : β) : dictGet (dictSet d k v) k = some v := by
  induction d with
  | nil => simp [dictSet, dictGet]
  | cons kv rest ih =>
    unfold dictSet
    by_cases h : kv.1 = k
    · rw [if_pos h]
      simp [dictGet]
    · rw [if_neg h]
      unfold dictGet
      rw [if_neg h]
      exact ih

theorem leavePlayers_nonmember (uid : String) (ps : List Player)
    (hall : ps.all (fun p => !(p.id == uid)) = true)
    (hany : ps.any (fun p => p.is_host) = true) :
    leavePlayers uid ps = ps := by
  have hfilter : ps.filter (fun p => !(p.id == uid)) = ps :=
    List.filter_eq_self.mpr (fun a ha => List.all_eq_true.mp hall a ha)
  unfold leavePlayers
  rw [hfilter]
  cases ps with
  | nil => simp at hany
  | cons q qs =>
    simp only [List.isEmpty_cons, Bool.false_eq_true, if_false]
    rw [if_pos hany]

theorem leavePlayers_filter_length (uid : String) (ps : List Player) :
    (ps.filter (fun p => !(p.id == uid))).length
      + ps.countP (fun p => p.id == uid) = ps.length := by
  induction ps with
  | nil => rfl
  | cons q qs ih =>
    by_cases h : q.id = uid
    all_goals simp [List.filter_cons, List.countP_cons, h]
    all_goals omega

theorem leavePlayers_length (uid : String) (ps : List Player)
    (h : ps.countP (fun p => p.id == uid) = 1) :
    (leavePlayers uid ps).length + 1 = ps.length := by
  have hfl : (ps.filter (fun p => !(p.id == uid))).length + 1 = ps.length := by
    have h2 := leavePlayers_filter_length uid ps
    omega
  unfold leavePlayers
  generalize hg : ps.filter (fun p => !(p.id == uid)) = ps2 at hfl ⊢
  cases ps2 with
  | nil => simpa using hfl
  | cons q qs =>
    simp only [List.isEmpty_cons, Bool.false_eq_true, if_false]
    cases ha : (q :: qs).any (fun p => p.is_host) with
    | true => simpa using hfl
    | false => simpa using hfl

/-- C8 counterexample: a leave request with a valid live code by an
identified user who is not a member of the lobby succeeds (HTTP 200 with
`{success: true}`), rather than failing with the claimed 400, and removes no
player from the lobby. -/
theorem c8_nonmember_leave_succeeds :
    (leave_lobby (some "111111") (some "2")
        [("111111", create_lobby "1")] []).1 = .success
    ∧ (leave_lobby (some "111111") (some "2")
        [("111111", create_lobby "1")] []).2.1
      = [("111111", create_lobby "1")] := by
  decide

/-- C8 (amended): the 400 `Not in a lobby` failure occurs exactly when the
session carries no user identity, independently of membership; a leave
request by an identified non-member of a live lobby succeeds and leaves the
lobby's player list unchanged (given the one-host invariant holds); and a
successful leave by a member removes exactly that one player. -/
theorem c8_amended_leave_behaviour :
    (∀ (c : String) (lb : Lobby) (lobbies : List (String × Lobby))
        (socks : List (String × String)), c ≠ "" → dictGet lobbies c = some lb →
        leave_lobby (some c) none lobbies socks = (.notInLobby, lobbies, socks))
    ∧ (∀ (c uid : String) (lb : Lobby) (lobbies : List (String × Lobby))
        (socks : List (String × String)), c ≠ "" → dictGet lobbies c = some lb →
        lb.players.all (fun p => !(p.id == uid)) = true →
        lb.players.any (fun p => p.is_host) = true →
        (leave_lobby (some c) (some uid) lobbies socks).1 = .success
        ∧ dictGet (leave_lobby (some c) (some uid) lobbies socks).2.1 c
            = some lb)
    ∧ (∀ (c uid : String) (lb : Lobby) (lobbies : List (String × Lobby))
        (socks : List (String × String)), c ≠ "" → dictGet lobbies c = some lb →
        lb.players.countP (fun p => p.id == uid) = 1 →
        (leave_lobby (some c) (some uid) lobbies socks).1 = .success
        ∧ (leavePlayers uid lb.players).length + 1 = lb.players.length) := by
  refine ⟨?_, ?_, ?_⟩
  · intro c lb lobbies socks hc hget
    simp only [leave_lobby, if_neg hc, hget]
  · intro c uid lb lobbies socks hc hget hall hany
    have hlp := leavePlayers_nonmember uid lb.players hall hany
    have hie : (leavePlayers uid lb.players).isEmpty = false := by
      rw [hlp]
      rcases List.any_eq_true.mp hany with ⟨p, hp, _⟩
      cases ps : lb.players with
      | nil => rw [ps] at hp; cases hp
      | cons q qs => rfl
    simp only [leave_lobby, if_neg hc, hget, hie, Bool.false_eq_true, if_false]
    refine ⟨trivial, ?_⟩
    rw [hlp, dictGet_dictSet]
  · intro c uid lb lobbies socks hc hget hcount
    constructor
    · simp only [leave_lobby, if_neg hc, hget]
      split <;> rfl
    · exact leavePlayers_length uid lb.players hcount

/-- C8 amended witness: the host "1" of a two-player lobby is left by member
"2"; the request succeeds and exactly one player is removed. -/
theorem c8_amended_leave_behaviour_witness :
    (leave_lobby (some "111111") (some "2")
        [("111111",
          { players :=
              [{ id := "1", is_host := true, score := 0 },
               { id := "2", is_host := false, score := 4 }]
            status := "waiting"
            round := 0
            max_rounds := 10
            current_song := none
            guesses := none })] []).1 = .success
    ∧ (leavePlayers "2"
        (Lobby.players
          { players :=
              [{ id := "1", is_host := true, score := 0 },
               { id := "2", is_host := false, score := 4 }]
            status := "waiting"
            round := 0
            max_rounds := 10
            current_song := none
            guesses := none })).length + 1
      = (Lobby.players
          { players :=
              [{ id := "1", is_host := true, score := 0 },
               { id := "2", is_host := false, score := 4 }]
            status := "waiting"
            round := 0
            max_rounds := 10
            current_song := none
            guesses := none }).length :=
  c8_amended_leave_behaviour.2.2 "111111" "2"
    { players :=
        [{ id := "1", is_host := true, score := 0 },
         { id := "2", is_host := false, score := 4 }]
      status := "waiting"
      round := 0
      max_rounds := 10
      current_song := none
      guesses := none }
    [("111111",
      { players :=
          [{ id := "1", is_host := true, score := 0 },
           { id := "2", is_host := false, score := 4 }]
        status := "waiting"
        round := 0
        max_rounds := 10
        current_song := none
        guesses := none })] []
    (by decide) (by decide) (by decide)

theorem winnerLoop_spec (ps : List Player) : ∀ (w : Option String) (h : Int),
    (winnerLoop ps w h = (w, h)
      ∧ ∀ j (hj : j < ps.length), ((ps.get ⟨j, hj⟩).score : Int) ≤ h)
    ∨ (∃ i, ∃ hi : i < ps.length,
        winnerLoop ps w h
          = (some (ps.get ⟨i, hi⟩).id, ((ps.get ⟨i, hi⟩).score : Int))
        ∧ h < ((ps.get ⟨i, hi⟩).score : Int)
        ∧ (∀ j (hj : j < ps.length),
            (ps.get ⟨j, hj⟩).score ≤ (ps.get ⟨i, hi⟩).score)
        ∧ (∀ j (hj : j < i),
            (ps.get ⟨j, Nat.lt_trans hj hi⟩).score < (ps.get ⟨i, hi⟩).score)) := by
  induction ps with
  | nil =>
    intro w h
    left
    exact ⟨rfl, fun j hj => absurd hj (Nat.not_lt_zero j)⟩
  | cons p ps ih =>
    intro w h
    unfold winnerLoop
    by_cases hc : h < (p.score : Int)
    · rw [if_pos hc]
      rcases ih (some p.id) (p.score : Int) with ⟨heq, hall⟩ |
          ⟨i, hi, heq, hgt, hle, hstrict⟩
      · right
        refine ⟨0, Nat.succ_pos _, heq, hc, ?_, ?_⟩
        · intro j hj
          cases j with
          | zero => exact le_refl _
          | succ jj => exact_mod_cast hall jj (Nat.lt_of_succ_lt_succ hj)
        · intro j hj
          exact absurd hj (Nat.not_lt_zero j)
      · right
        refine ⟨i + 1, Nat.succ_lt_succ hi, heq, lt_trans hc hgt, ?_, ?_⟩
        · intro j hj
          cases j with
          | zero => exact_mod_cast le_of_lt hgt
          | succ jj => exact hle jj (Nat.lt_of_succ_lt_succ hj)
        · intro j hj
          cases j with
          | zero => exact_mod_cast hgt
          | succ jj => exact hstrict jj (Nat.lt_of_succ_lt_succ hj)
    · rw [if_neg hc]
      rcases ih w h with ⟨heq, hall⟩ | ⟨i, hi, heq, hgt, hle, hstrict⟩
      · left
        refine ⟨heq, ?_⟩
        intro j hj
        cases j with
        | zero => exact le_of_not_lt hc
        | succ jj => exact hall jj (Nat.lt_of_succ_lt_succ hj)
      · right
        refine ⟨i + 1, Nat.succ_lt_succ hi, heq, hgt, ?_, ?_⟩
        · intro j hj
          cases j with
          | zero =>
            have hph : (p.score : Int) ≤ h := le_of_not_lt hc
            exact_mod_cast le_of_lt (lt_of_le_of_lt hph hgt)
          | succ jj => exact hle jj (Nat.lt_of_succ_lt_succ hj)
        · intro j hj
          cases j with
          | zero =>
            have hph : (p.score : Int) ≤ h := le_of_not_lt hc
            exact_mod_cast lt_of_le_of_lt hph hgt
          | succ jj => exact hstrict jj (Nat.lt_of_succ_lt_succ hj)

/-- C6: for a non-empty player list the winner scan picks the earliest-listed
player whose score is maximal (every earlier player scores strictly less,
every player scores at most as much), and every `run_game` trace ends with
the `game_ended` event naming exactly that computed winner over the final
player list. -/
theorem c6_winner_first_maximum (ps : List Player) (hne : ps ≠ []) :
    (∃ i, ∃ hi : i < ps.length,
      (computeWinner ps).1 = some ((ps.get ⟨i, hi⟩).id)
      ∧ (∀ j (hj : j < ps.length),
          (ps.get ⟨j, hj⟩).score ≤ (ps.get ⟨i, hi⟩).score)
      ∧ (∀ j (hj : j < i),
          (ps.get ⟨j, Nat.lt_trans hj hi⟩).score < (ps.get ⟨i, hi⟩).score))
    ∧ (∀ (fetch : Nat → Nat → Option Song)
        (subs : Nat → List (Option String × String))
        (connected : String → Bool) (lb : Lobby),
        (run_game fetch subs connected lb).2.getLast?
          = some (.game_ended
              (computeWinner (run_game fetch subs connected lb).1.players).1
              (run_game fetch subs connected lb).1.players)) := by
  constructor
  · rcases winnerLoop_spec ps none (-1) with ⟨_, hall⟩ |
        ⟨i, hi, heq, _, hle, hstrict⟩
    · exfalso
      have hlen : 0 < ps.length := List.length_pos.mpr hne
      have h0 := hall 0 hlen
      omega
    · refine ⟨i, hi, ?_, hle, hstrict⟩
      unfold computeWinner
      rw [heq]
  · intro fetch subs connected lb
    unfold run_game
    simp

/-- C6 witness: a tie between two players resolves to the earliest-listed
one. -/
theorem c6_winner_first_maximum_witness :
    (∃ i, ∃ hi : i <
        ([{ id := "a", is_host := true, score := 2 },
          { id := "b", is_host := false, score := 2 }] : List Player).length,
      (computeWinner
          [{ id := "a", is_host := true, score := 2 },
           { id := "b", is_host := false, score := 2 }]).1
        = some ((([{ id := "a", is_host := true, score := 2 },
            { id := "b", is_host := false, score := 2 }] :
              List Player).get ⟨i, hi⟩).id)
      ∧ (∀ j (hj : j <
            ([{ id := "a", is_host := true, score := 2 },
              { id := "b", is_host := false, score := 2 }] :
                List Player).length),
          (([{ id := "a", is_host := true, score := 2 },
             { id := "b", is_host := false, score := 2 }] :
              List Player).get ⟨j, hj⟩).score
            ≤ (([{ id := "a", is_host := true, score := 2 },
                { id := "b", is_host := false, score := 2 }] :
                  List Player).get ⟨i, hi⟩).score)
      ∧ (∀ j (hj : j < i),
          (([{ id := "a", is_host := true, score := 2 },
             { id := "b", is_host := false, score := 2 }] :
              List Player).get ⟨j, Nat.lt_trans hj hi⟩).score
            < (([{ id := "a", is_host := true, score := 2 },
                { id := "b", is_host := false, score := 2 }] :
                  List Player).get ⟨i, hi⟩).score))
    ∧ (∀ (fetch : Nat → Nat → Option Song)
        (subs : Nat → List (Option String × String))
        (connected : String → Bool) (lb : Lobby),
        (run_game fetch subs connected lb).2.getLast?
          = some (.game_ended
              (computeWinner (run_game fetch subs connected lb).1.players).1
              (run_game fetch subs connected lb).1.players)) :=
  c6_winner_first_maximum
    [{ id := "a", is_host := true, score := 2 },
     { id := "b", is_host := false, score := 2 }] (by decide)

/-- C10: `validate_guess` with a non-empty guess and song initialises the
session score if absent, adds exactly 1 iff the guess is judged correct,
and reports the updated accumulated score in the response; `reset_score`
resets the session score to 0. -/
theorem c10_session_score_accumulation (guess song : String) (hg : guess ≠ "")
    (hs : song ≠ "") (session_score : Option Nat) :
    (validate_guess (some guess) (some song) session_score).2
        = some (session_score.getD 0
            + (if is_close_match guess song then 1 else 0))
    ∧ (validate_guess (some guess) (some song) session_score).1
        = some { correct := is_close_match guess song,
                 score := session_score.getD 0
                   + (if is_close_match guess song then 1 else 0) }
    ∧ reset_score session_score = (0, some 0) := by
  have hcond : ¬(guess = "" ∨ song = "") := not_or.mpr ⟨hg, hs⟩
  simp only [validate_guess, reset_score, if_neg hcond]
  cases hch : is_close_match guess song <;> simp [hch, hcond]

/-- C10 witness at a concrete correct guess: the accumulated session score
moves from 3 to 4 and is reported. -/
theorem c10_session_score_accumulation_witness :
    (validate_guess (some "abba") (some "abba") (some 3)).2 = some 4 := by
  have h := (c10_session_score_accumulation "abba" "abba" (by decide) (by decide)
    (some 3)).1
  have hc : is_close_match "abba" "abba" = true := by decide
  rw [hc] at h
  simpa using h

/-- C7: `is_close_match` normalises both strings with `clean_title`
(parenthetical segments stripped, whitespace trimmed, lowercased — witnessed
concretely on the spec's example), returns true exactly when the
`SequenceMatcher` similarity ratio of the cleaned strings is at least `0.7`,
that ratio always lies in `[0, 1]`, and the two concrete test cases evaluate
as the spec states. -/
theorem c7_is_close_match :
    (∀ guess reference : String,
        is_close_match guess reference = true ↔
          (7 : ℚ) / 10 ≤ ratioQ (clean_title guess) (clean_title reference))
    ∧ (∀ a b : String, 0 ≤ ratioQ a b ∧ ratioQ a b ≤ 1)
    ∧ clean_title "Give Me Everything (feat. Nayer)" = "give me everything"
    ∧ is_close_match "Give Me Everything (feat. Nayer)" "give me everything" = true
    ∧ is_close_match "totally different" "give me everything" = false := by
  exact ⟨is_close_match_iff_ratioQ, ratioQ_mem_unit, by decide, by decide, by decide⟩

end MusicGame
